import Mathlib

/-!
Shallow embedding of the order-processing and inventory core of the
mini-business-management backend (Flask + SQLAlchemy).

Sources embedded:
  * `backend/app/models/product.py` — `Product.reduce_stock`, `Product.increase_stock`
  * `backend/app/models/order.py` — order states, `Order.can_transition_to`,
    `Order.update_status`, `Order.calculate_totals`, `OrderItem.calculate_line_total`
  * `backend/app/routes/order_routes.py` — `create_order`, `update_order_status`,
    `cancel_order`

Modelling conventions:
  * Monetary values (`Numeric(10,2)` columns and Python arithmetic on them) are
    exact rationals `ℚ`; `round2` expresses the two-decimal currency rounding a
    scale-2 column applies on persistence.
  * Quantities and stock counts are `ℤ` (Python ints from JSON can be negative).
  * Timestamps (`datetime.utcnow()`) are abstract ticks `ℕ`, passed in as a
    `now` parameter.
  * The generated order number (`Order.generate_order_number` is time- and
    randomness-dependent) is an external input `onum : String`; the primary key
    assigned by `db.session.flush()` is an external input `oid : ℕ`.
  * The SQLAlchemy session is made explicit for `create_order`: the function
    returns the outcome, the session state at the moment of return (including
    any uncommitted mutations), and whether `db.session.commit()` ran.  A
    request's mutations reach the store only when committed (`persisted`);
    an uncommitted session is discarded at request teardown, and the
    `except`-branch `db.session.rollback()` likewise restores the store.
-/

/-- Order state constants from `Order.STATUS_*` / `Order.VALID_STATUSES`. -/
inductive Status where
  | Pending
  | Processing
  | Shipped
  | Delivered
  | Cancelled
deriving DecidableEq, Repr

/-- Row of the `products` table, restricted to the fields the order core reads
or writes (`id`, `name`, `price`, `stock_quantity`). -/
structure Product where
  id : Nat
  name : String
  price : ℚ
  stock_quantity : Int
deriving DecidableEq, Repr

/-- `Product.reduce_stock`: decrement only when `stock_quantity >= quantity`,
returning whether the decrement happened (the source mutates `self`; here the
updated row is returned alongside the Bool). -/
def reduce_stock (p : Product) (quantity : Int) : Bool × Product :=
  if p.stock_quantity ≥ quantity then
    (true, { p with stock_quantity := p.stock_quantity - quantity })
  else
    (false, p)

/-- `Product.increase_stock`: unconditional increment. -/
def increase_stock (p : Product) (quantity : Int) : Product :=
  { p with stock_quantity := p.stock_quantity + quantity }

/-- Row of the `orders` table, restricted to the fields the order core reads or
writes.  `order_number` is the generated string key (unique column). -/
structure Order where
  id : Nat
  order_number : String
  customer_id : Nat
  status : Status
  subtotal : ℚ
  tax_amount : ℚ
  shipping_amount : ℚ
  total_amount : ℚ
  updated_at : Nat
  shipped_date : Option Nat
  delivered_date : Option Nat
deriving DecidableEq, Repr

/-- Row of the `order_items` table (fields used by the core). -/
structure OrderItem where
  order_id : Nat
  product_id : Nat
  quantity : Int
  unit_price : ℚ
  line_total : ℚ
deriving DecidableEq, Repr

/-- `Order.can_transition_to`: membership in the `valid_transitions` dict of
lists (`.get(status, [])` can never miss since the keys cover every state). -/
def can_transition_to (current new_status : Status) : Bool :=
  match current with
  | .Pending => [Status.Processing, Status.Cancelled].contains new_status
  | .Processing => [Status.Shipped, Status.Cancelled].contains new_status
  | .Shipped => [Status.Delivered].contains new_status
  | .Delivered => ([] : List Status).contains new_status
  | .Cancelled => ([] : List Status).contains new_status

/-- `Order.update_status`: validate via `can_transition_to`; on success set
`status`, `updated_at`, and stamp `shipped_date` / `delivered_date` when
entering those states (the source's `if`/`elif`). -/
def update_status (o : Order) (new_status : Status) (now : Nat) : Bool × Order :=
  if can_transition_to o.status new_status then
    (true,
      { o with
          status := new_status
          updated_at := now
          shipped_date := if new_status = Status.Shipped then some now else o.shipped_date
          delivered_date := if new_status = Status.Delivered then some now else o.delivered_date })
  else
    (false, o)

/-- `OrderItem.calculate_line_total`: `line_total = quantity * unit_price`. -/
def calculate_line_total (it : OrderItem) : OrderItem :=
  { it with line_total := (it.quantity : ℚ) * it.unit_price }

/-- `Order.calculate_totals`: `subtotal = Σ line_total`, `tax_amount =
subtotal * 0.08`, `total_amount = subtotal + tax_amount + shipping_amount`.
The order's `items` relationship is passed explicitly. -/
def calculate_totals (o : Order) (items : List OrderItem) : Order :=
  let subtotal := (items.map (·.line_total)).sum
  let tax := subtotal * (0.08 : ℚ)
  { o with
      subtotal := subtotal
      tax_amount := tax
      total_amount := subtotal + tax + o.shipping_amount }

/-- Rounding of an exact rational to a scale-2 (`Numeric(10,2)`) column:
round to the nearest hundredth. -/
def round2 (x : ℚ) : ℚ :=
  ((round (x * 100) : ℤ) : ℚ) / 100

/-- The persistent store: customers (only their ids matter to the order core),
products, orders and order items. -/
structure DB where
  customers : List Nat
  products : List Product
  orders : List Order
  order_items : List OrderItem
deriving DecidableEq, Repr

/-- Errors surfaced by the order routes (each tagged response of
`order_routes.py`). `commitConflict` is the 500 produced when the unique
constraint on `order_number` rejects the insert and the `except` branch
rolls back. -/
inductive OrderError where
  | customerIdRequired
  | itemsRequired
  | customerNotFound
  | itemMissingFields
  | productNotFound (product_id : Nat)
  | insufficientStock (product_name : String)
  | commitConflict
  | orderNotFound
  | invalidTransition
  | invalidCancellation
deriving DecidableEq, Repr

/-- One entry of the request's `items` array; `none` models an absent key
(the route checks key presence with `all(key in item_data ...)`). -/
structure LineReq where
  product_id : Option Nat
  quantity : Option Int
deriving DecidableEq, Repr

/-- The JSON body of `POST /api/orders`, restricted to the fields the core
reads. `customer_id = none` models an absent (or non-truthy) key; `items =
none` models an absent or non-list `items` key. -/
structure CreateOrderRequest where
  customer_id : Option Nat
  items : Option (List LineReq)
  shipping_amount : ℚ
deriving DecidableEq, Repr

/-- The item loop of `create_order` (lines 97–121): for each entry check key
presence, resolve the product, reject on insufficient stock, build the line
item (`unit_price` snapshots `product.price`), and reduce stock through the
session's identity map (later entries for the same product see the reduced
stock).  On failure the session state reached so far is returned with the
error. -/
def processItems (oid : Nat) (reqs : List LineReq) (ps : List Product)
    (acc : List OrderItem) :
    Except (OrderError × List Product × List OrderItem) (List Product × List OrderItem) :=
  match reqs with
  | [] => .ok (ps, acc)
  | it :: rest =>
    match it.product_id, it.quantity with
    | some pid, some q =>
      match ps.find? (fun p => p.id == pid) with
      | none => .error (.productNotFound pid, ps, acc)
      | some p =>
        if p.stock_quantity < q then
          .error (.insufficientStock p.name, ps, acc)
        else
          let item := calculate_line_total
            { order_id := oid, product_id := p.id, quantity := q,
              unit_price := p.price, line_total := 0 }
          processItems oid rest
            (ps.map fun x => if x.id == pid then (reduce_stock x q).2 else x)
            (acc ++ [item])
    | _, _ => .error (.itemMissingFields, ps, acc)

instance {ε α : Type} [DecidableEq ε] [DecidableEq α] : DecidableEq (Except ε α) := fun a b =>
  match a, b with
  | .ok x, .ok y =>
      if h : x = y then .isTrue (congrArg Except.ok h)
      else .isFalse (fun hh => h (Except.ok.inj hh))
  | .error x, .error y =>
      if h : x = y then .isTrue (congrArg Except.error h)
      else .isFalse (fun hh => h (Except.error.inj hh))
  | .ok _, .error _ => .isFalse (fun hh => Except.noConfusion hh)
  | .error _, .ok _ => .isFalse (fun hh => Except.noConfusion hh)

/-- Result of a `create_order` request: HTTP outcome, the session state at the
moment the handler returned, and whether `db.session.commit()` ran. -/
structure CreateResult where
  outcome : Except OrderError Order
  session : DB
  committed : Bool
deriving DecidableEq, Repr

/-- The store visible after the request: the session only if it committed;
an uncommitted session is discarded (explicit `rollback()` on the exception
path, session teardown on the early-return paths). -/
def persisted (db : DB) (r : CreateResult) : DB :=
  if r.committed then r.session else db

/-- `create_order` (`POST /api/orders`, lines 61–131), with the session made
explicit.  Control flow mirrors the route: truthiness check on
`customer_id`; presence/shape check on `items`; customer lookup; order
construction with status `Pending` and the generated number; `add` +
`flush` (where a duplicate `order_number` raises, is caught, rolled back and
surfaced as a 500); the item loop; `calculate_totals`; `commit`. -/
def create_order (db : DB) (req : CreateOrderRequest) (oid : Nat) (onum : String)
    (now : Nat) : CreateResult :=
  match req.customer_id with
  | none => ⟨.error .customerIdRequired, db, false⟩
  | some cid =>
    if cid = 0 then ⟨.error .customerIdRequired, db, false⟩
    else
      match req.items with
      | none => ⟨.error .itemsRequired, db, false⟩
      | some its =>
        if its.isEmpty then ⟨.error .itemsRequired, db, false⟩
        else if db.customers.contains cid then
          let order0 : Order :=
            { id := oid, order_number := onum, customer_id := cid,
              status := .Pending, subtotal := 0, tax_amount := 0,
              shipping_amount := req.shipping_amount, total_amount := 0,
              updated_at := now, shipped_date := none, delivered_date := none }
          if db.orders.any (fun o => o.order_number == onum) then
            ⟨.error .commitConflict, db, false⟩
          else
            match processItems oid its db.products [] with
            | .error (e, psMid, itemsMid) =>
                ⟨.error e,
                  { db with
                      orders := db.orders ++ [order0]
                      products := psMid
                      order_items := db.order_items ++ itemsMid },
                  false⟩
            | .ok (ps', newItems) =>
                let order1 := calculate_totals order0 newItems
                ⟨.ok order1,
                  { db with
                      orders := db.orders ++ [order1]
                      products := ps'
                      order_items := db.order_items ++ newItems },
                  true⟩
        else ⟨.error .customerNotFound, db, false⟩

/-- `update_order_status` (`PUT /api/orders/<id>/status`, lines 133–155):
resolve the order (`get_or_404`), delegate to `Order.update_status`, commit
on success, report the invalid transition otherwise. -/
def update_order_status (db : DB) (order_id : Nat) (new_status : Status)
    (now : Nat) : Except OrderError DB :=
  match db.orders.find? (fun o => o.id == order_id) with
  | none => .error .orderNotFound
  | some o =>
    let r := update_status o new_status now
    if r.1 then
      .ok { db with orders := db.orders.map fun x => if x.id == o.id then r.2 else x }
    else
      .error .invalidTransition

/-- One step of the stock-restoration loop of `cancel_order`
(`item.product.increase_stock(item.quantity)`). -/
def restoreStep (ps : List Product) (it : OrderItem) : List Product :=
  ps.map fun p => if p.id == it.product_id then increase_stock p it.quantity else p

/-- `cancel_order` (`DELETE /api/orders/<id>`, lines 157–178): resolve the
order; reject unless status is `Pending`; restore stock for every line item;
set the status to `Cancelled` (the `update_status` return value is ignored,
as in the source); commit. -/
def cancel_order (db : DB) (order_id : Nat) (now : Nat) : Except OrderError DB :=
  match db.orders.find? (fun o => o.id == order_id) with
  | none => .error .orderNotFound
  | some o =>
    if o.status ≠ Status.Pending then .error .invalidCancellation
    else
      let items := db.order_items.filter (fun it => it.order_id == o.id)
      let ps' := items.foldl restoreStep db.products
      let o' := (update_status o Status.Cancelled now).2
      .ok { db with
              products := ps'
              orders := db.orders.map fun x => if x.id == o.id then o' else x }

/-! ## Replay of CreateOrder/CancelOrder sequences on a single product -/

/-- Total quantity of product `pid` among the line items that belong to order
`oid0`. -/
def orderDemand (items : List OrderItem) (pid oid0 : Nat) : Int :=
  ((items.filter fun it => it.order_id == oid0 && it.product_id == pid).map
    (·.quantity)).sum

/-- Total quantity of product `pid` across the line items of the orders that
are still active (not `Cancelled`). -/
def activeDemand (db : DB) (pid : Nat) : Int :=
  ((db.orders.filter fun o => o.status != Status.Cancelled).map
    fun o => orderDemand db.order_items pid o.id).sum

/-- One workflow call in a replayed sequence: a `CreateOrder` whose `items`
array requests the quantities `qs` of the single product, or a `CancelOrder`
of the order with id `oid0`. -/
inductive Op where
  | create (qs : List Int)
  | cancel (oid0 : Nat)
deriving DecidableEq, Repr

/-- The request body of a replayed `CreateOrder`: customer 1, one `items`
entry per requested quantity, all for product `pid`, no shipping charge. -/
def mkReq (pid : Nat) (qs : List Int) : CreateOrderRequest :=
  ⟨some 1, some (qs.map fun q => ⟨some pid, some q⟩), 0⟩

/-- Execute one workflow call against the store.  The counter `n` supplies the
fresh primary key and generated order number for a create; a failed call
leaves the store unchanged (nothing was committed). -/
def stepOp (pid : Nat) (st : DB × Nat) (op : Op) : DB × Nat :=
  match op with
  | .create qs =>
      (persisted st.1 (create_order st.1 (mkReq pid qs) st.2 (toString st.2) 0),
        st.2 + 1)
  | .cancel oid0 =>
      (match cancel_order st.1 oid0 0 with
        | .ok db' => db'
        | .error _ => st.1,
        st.2)

/-- The store holding one customer (id 1) and one product with the given
initial stock, before any orders exist. -/
def initDB (pid : Nat) (name : String) (price : ℚ) (init : Int) : DB :=
  ⟨[1], [⟨pid, name, price, init⟩], [], []⟩

/-- Replay a sequence of workflow calls against a fresh single-product store. -/
def replay (pid : Nat) (name : String) (price : ℚ) (init : Int)
    (ops : List Op) : DB × Nat :=
  ops.foldl (stepOp pid) (initDB pid name price init, 0)

/-- Invariant tying the single product's stock to the demand of the active
orders, together with the bookkeeping facts (fresh, distinct order ids;
line items referencing existing orders and the single product) that make it
inductive. -/
def ReplayInv (pid : Nat) (name : String) (price : ℚ) (init : Int)
    (st : DB × Nat) : Prop :=
  st.1.customers = [1] ∧
  st.1.products = [⟨pid, name, price, init - activeDemand st.1 pid⟩] ∧
  (∀ o ∈ st.1.orders, o.id < st.2) ∧
  st.1.orders.Pairwise (fun a b => a.id ≠ b.id) ∧
  (∀ it ∈ st.1.order_items, it.product_id = pid ∧
    ∃ o ∈ st.1.orders, it.order_id = o.id)

/-! ## Concrete stores used as evaluation inputs -/

/-- Store for the atomicity example: three products, the third with stock 1. -/
def dbAtomic : DB :=
  ⟨[1], [⟨1, "A", 5, 10⟩, ⟨2, "B", 5, 10⟩, ⟨3, "C", 5, 1⟩], [], []⟩

/-- Three line items; the third asks for 5 units of the product with stock 1. -/
def reqAtomic : CreateOrderRequest :=
  ⟨some 1, some [⟨some 1, some 2⟩, ⟨some 2, some 2⟩, ⟨some 3, some 5⟩], 0⟩

/-- A Pending order for 2 units of product 1 created against stock 10 (so the
store now shows stock 8), ready to be cancelled. -/
def dbCancel : DB :=
  ⟨[1], [⟨1, "A", 5, 8⟩],
    [⟨1, "N1", 1, .Pending, 10, 1, 0, 11, 0, none, none⟩],
    [⟨1, 1, 2, 5, 10⟩]⟩

/-- The Pending order stored in `dbCancel`. -/
def oCancel : Order := ⟨1, "N1", 1, .Pending, 10, 1, 0, 11, 0, none, none⟩

/-- Store for the end-to-end example: customer 1, product P1 priced 19.99
(written `1999/100`) with stock 10. -/
def dbEx : DB := ⟨[1], [⟨1, "P1", 1999 / 100, 10⟩], [], []⟩

/-- The end-to-end request: 3 units of P1, shipping 0. -/
def reqEx : CreateOrderRequest := ⟨some 1, some [⟨some 1, some 3⟩], 0⟩

/-- Store that already holds an order numbered "ORD1": inserting another order
with the same generated number violates the unique constraint. -/
def dbConflict : DB :=
  ⟨[1], [⟨1, "A", 5, 10⟩],
    [⟨1, "ORD1", 1, .Pending, 0, 0, 0, 0, 0, none, none⟩], []⟩

/-- A well-formed one-line request made against `dbConflict`. -/
def reqConflict : CreateOrderRequest := ⟨some 1, some [⟨some 1, some 1⟩], 0⟩

/-- Store for the negative-quantity example: product 1 with stock 5. -/
def dbNeg : DB := ⟨[1], [⟨1, "A", 5, 5⟩], [], []⟩

/-- A Pending order on which the status-transition example is run. -/
def oPend : Order := ⟨1, "N", 1, .Pending, 0, 0, 0, 0, 0, none, none⟩

/-! ## Generic lemmas about the list-based store -/

theorem find?_map_eq {α : Type} (f : α → α) (pr : α → Bool)
    (hpr : ∀ x, pr (f x) = pr x) :
    ∀ (l : List α) (a : α), l.find? pr = some a →
      (l.map f).find? pr = some (f a) := by
  intro l
  induction l with
  | nil => intro a h; simp at h
  | cons b t ih =>
    intro a h
    rw [List.map_cons]
    cases hpb : pr b with
    | true =>
      rw [List.find?_cons_of_pos _ hpb] at h
      cases h
      exact List.find?_cons_of_pos _ (by rw [hpr]; exact hpb)
    | false =>
      have hneg : ¬ pr b = true := by simp [hpb]
      have hneg2 : ¬ pr (f b) = true := by rw [hpr]; exact hneg
      rw [List.find?_cons_of_neg _ hneg] at h
      rw [List.find?_cons_of_neg _ hneg2]
      exact ih a h

theorem find?_map_of_id (f : Product → Product) (hid : ∀ x, (f x).id = x.id)
    (ps : List Product) (pid : Nat) (p : Product)
    (h : ps.find? (fun x => x.id == pid) = some p) :
    (ps.map f).find? (fun x => x.id == pid) = some (f p) :=
  find?_map_eq f _ (fun x => by simp [hid]) ps p h

theorem find?_replace (os : List Order) (oid0 : Nat) (o o' : Order)
    (hid : o'.id = o.id)
    (h : os.find? (fun x => x.id == oid0) = some o) :
    (os.map fun x => if x.id == o.id then o' else x).find?
        (fun x => x.id == oid0) = some o' := by
  have hoid : o.id = oid0 := by simpa using List.find?_some h
  have hpr : ∀ x : Order,
      ((if x.id == o.id then o' else x).id == oid0) = (x.id == oid0) := by
    intro x
    by_cases hx : x.id = o.id
    · simp [hx, hid]
    · simp [hx]
  have main := find?_map_eq _ _ hpr os o h
  simpa using main

/-! ## C4 — inventory reserve (`Product.reduce_stock`) -/

/-- C4: the reserve operation succeeds iff `stock_quantity ≥ quantity`; on
success it decrements the stock by exactly that quantity, on failure it
leaves the stock unchanged; hence for non-negative requested quantities a
non-negative stock never becomes negative. -/
theorem reduce_stock_reserve_spec (p : Product) (q : Int) :
    ((reduce_stock p q).1 = true ↔ q ≤ p.stock_quantity) ∧
    (q ≤ p.stock_quantity →
      (reduce_stock p q).2 = { p with stock_quantity := p.stock_quantity - q }) ∧
    (¬ q ≤ p.stock_quantity → (reduce_stock p q).2 = p) ∧
    (0 ≤ q → 0 ≤ p.stock_quantity → 0 ≤ (reduce_stock p q).2.stock_quantity) := by
  by_cases h : q ≤ p.stock_quantity
  · refine ⟨by simp [reduce_stock, ge_iff_le, h],
      fun _ => by simp [reduce_stock, ge_iff_le, h],
      fun hc => absurd h hc, fun hq _ => by simp [reduce_stock, ge_iff_le, h]⟩
  · refine ⟨by simp [reduce_stock, ge_iff_le, h], fun hc => absurd hc h,
      fun _ => by simp [reduce_stock, ge_iff_le, h], fun _ hs => ?_⟩
    simp [reduce_stock, ge_iff_le, h]
    exact hs

/-- Evaluation of C4 at a concrete input: reserving 3 of a stock of 10
succeeds, leaves stock 7, and the stock stays non-negative. -/
theorem reduce_stock_reserve_spec_eval :
    (reduce_stock ⟨1, "A", 5, 10⟩ 3).1 = true ∧
    (reduce_stock ⟨1, "A", 5, 10⟩ 3).2 =
      { Product.mk 1 "A" 5 10 with stock_quantity := 10 - 3 } ∧
    0 ≤ (reduce_stock ⟨1, "A", 5, 10⟩ 3).2.stock_quantity :=
  ⟨(reduce_stock_reserve_spec ⟨1, "A", 5, 10⟩ 3).1.mpr (by decide),
    (reduce_stock_reserve_spec ⟨1, "A", 5, 10⟩ 3).2.1 (by decide),
    (reduce_stock_reserve_spec ⟨1, "A", 5, 10⟩ 3).2.2.2 (by decide) (by decide)⟩

/-! ## C6 — totals computation (`Order.calculate_totals`) -/

/-- C6: `calculate_totals` sets `subtotal` to the sum of the line totals
(each line total being `quantity * unit_price` via `calculate_line_total`),
`tax_amount = subtotal * 0.08`, `total_amount = subtotal + tax_amount +
shipping_amount`, and it is idempotent on an unchanged line-item set. -/
theorem calculate_totals_spec (o : Order) (items : List OrderItem) :
    (calculate_totals o items).subtotal = (items.map (·.line_total)).sum ∧
    (calculate_totals o items).tax_amount =
      (calculate_totals o items).subtotal * (0.08 : ℚ) ∧
    (calculate_totals o items).total_amount =
      (calculate_totals o items).subtotal + (calculate_totals o items).tax_amount +
        (calculate_totals o items).shipping_amount ∧
    (∀ it : OrderItem,
      (calculate_line_total it).line_total = (it.quantity : ℚ) * it.unit_price) ∧
    calculate_totals (calculate_totals o items) items = calculate_totals o items :=
  ⟨rfl, rfl, rfl, fun _ => rfl, rfl⟩

/-! ## C3 — status state machine and `PUT /status` route -/

/-- C3: a status transition succeeds exactly for the targets of the
transition table (Pending→{Processing, Cancelled}, Processing→{Shipped,
Cancelled}, Shipped→{Delivered}, none from Delivered or Cancelled); a
same-status transition always fails; on success `update_status` sets the
status and `updated_at`, stamps `shipped_date` on entering Shipped and
`delivered_date` on entering Delivered, and changes nothing else; a
successful `PUT /status` never touches products, customers or line items. -/
theorem update_status_transition_spec (s t : Status) (o : Order) (now : Nat)
    (db : DB) (oid : Nat) :
    (can_transition_to s t = true ↔
      (s = .Pending ∧ (t = .Processing ∨ t = .Cancelled)) ∨
      (s = .Processing ∧ (t = .Shipped ∨ t = .Cancelled)) ∨
      (s = .Shipped ∧ t = .Delivered)) ∧
    can_transition_to s s = false ∧
    (can_transition_to o.status t = false → update_status o t now = (false, o)) ∧
    (can_transition_to o.status t = true →
      update_status o t now =
        (true,
          { o with
              status := t
              updated_at := now
              shipped_date := if t = Status.Shipped then some now else o.shipped_date
              delivered_date :=
                if t = Status.Delivered then some now else o.delivered_date })) ∧
    (∀ db', update_order_status db oid t now = .ok db' →
      db'.products = db.products ∧ db'.customers = db.customers ∧
        db'.order_items = db.order_items) := by
  refine ⟨?_, ?_, ?_, ?_, ?_⟩
  · cases s <;> cases t <;> decide
  · cases s <;> decide
  · intro h; simp [update_status, h]
  · intro h; simp [update_status, h]
  · intro db' h
    unfold update_order_status at h
    split at h
    · exact absurd h (by simp)
    · dsimp only at h
      split at h
      · cases h; exact ⟨rfl, rfl, rfl⟩
      · exact absurd h (by simp)

/-- Evaluation of C3 at concrete inputs: Pending→Shipped is refused (the
skip transition fails and leaves the order untouched), Pending→Processing
succeeds and stamps only status and `updated_at`. -/
theorem update_status_transition_spec_eval :
    can_transition_to Status.Pending Status.Shipped = false ∧
    update_status oPend Status.Shipped 7 = (false, oPend) ∧
    update_status oPend Status.Processing 7 =
      (true, { oPend with status := Status.Processing, updated_at := 7 }) := by
  refine ⟨by decide, ?_, ?_⟩
  · exact (update_status_transition_spec Status.Pending Status.Shipped oPend 7
      dbEx 0).2.2.1 (by decide)
  · have h := (update_status_transition_spec Status.Pending Status.Processing oPend 7
      dbEx 0).2.2.2.1 (by decide)
    simpa using h

/-! ## C7 — end-to-end creation example -/

/-- C7: against customer 1 and product P1 (price 19.99, stock 10),
`CreateOrder` of 3 units with shipping 0 commits an order with subtotal
59.97 (= 5997/100), exact tax 4.7976 (= 47976/10000; 4.80 after two-decimal
rounding), exact total 64.7676 (64.77 after two-decimal rounding), status
Pending, and leaves the stock at 7. -/
theorem create_order_example_spec :
    (create_order dbEx reqEx 1 "ORD1" 0).committed = true ∧
    (create_order dbEx reqEx 1 "ORD1" 0).outcome =
      .ok ⟨1, "ORD1", 1, .Pending, 5997 / 100, 47976 / 10000, 0, 647676 / 10000,
        0, none, none⟩ ∧
    round2 (47976 / 10000 : ℚ) = 480 / 100 ∧
    round2 (647676 / 10000 : ℚ) = 6477 / 100 ∧
    (create_order dbEx reqEx 1 "ORD1" 0).session.products =
      [⟨1, "P1", 1999 / 100, 7⟩] := by
  refine ⟨rfl, ?_, ?_, ?_, ?_⟩
  · norm_num [create_order, dbEx, reqEx, processItems, calculate_line_total,
      calculate_totals, List.find?, reduce_stock, Order.mk.injEq]
  · norm_num [round2, round_eq]
  · norm_num [round2, round_eq]
  · norm_num [create_order, dbEx, reqEx, processItems, calculate_line_total,
      calculate_totals, List.find?, reduce_stock, Product.mk.injEq]

/-! ## C1 — create_order is all-or-nothing -/

/-- Structural case analysis of `create_order`: every request either returns
without committing (carrying some error), or commits with a success outcome
and a collision-free order number.  All failure paths return before
`db.session.commit()`. -/
theorem create_order_cases (db : DB) (req : CreateOrderRequest) (oid : Nat)
    (onum : String) (now : Nat) :
    ((create_order db req oid onum now).committed = false ∧
      ∃ e, (create_order db req oid onum now).outcome = .error e) ∨
    ((create_order db req oid onum now).committed = true ∧
      (db.orders.any fun o => o.order_number == onum) = false ∧
      ∃ o, (create_order db req oid onum now).outcome = .ok o) := by
  unfold create_order
  split
  · exact Or.inl ⟨rfl, _, rfl⟩
  · split
    · exact Or.inl ⟨rfl, _, rfl⟩
    · split
      · exact Or.inl ⟨rfl, _, rfl⟩
      · split
        · exact Or.inl ⟨rfl, _, rfl⟩
        · split
          · dsimp only
            split
            · exact Or.inl ⟨rfl, _, rfl⟩
            · rename_i hno
              split
              · exact Or.inl ⟨rfl, _, rfl⟩
              · exact Or.inr ⟨rfl, by simpa using hno, _, rfl⟩
          · exact Or.inl ⟨rfl, _, rfl⟩

/-- C1: if any step of `create_order` fails (missing keys, unknown product,
insufficient stock on any line, or the commit-time conflict), nothing is
persisted: the store after the request equals the store before it, so no
order exists and no stock reservation of an earlier line of the same
request takes effect. -/
theorem create_order_atomicity (db : DB) (req : CreateOrderRequest) (oid : Nat)
    (onum : String) (now : Nat) (e : OrderError)
    (h : (create_order db req oid onum now).outcome = .error e) :
    persisted db (create_order db req oid onum now) = db := by
  rcases create_order_cases db req oid onum now with ⟨hc, _⟩ | ⟨_, _, o, ho⟩
  · simp [persisted, hc]
  · rw [h] at ho
    exact absurd ho (by simp)

/-- Evaluation of C1 on the spec's three-line example: lines 1 and 2 reserve
stock in the session, line 3 fails the stock check, and the persisted store
is exactly the original one. -/
theorem create_order_atomicity_eval :
    (create_order dbAtomic reqAtomic 1 "N" 0).outcome =
      .error (.insufficientStock "C") ∧
    persisted dbAtomic (create_order dbAtomic reqAtomic 1 "N" 0) = dbAtomic := by
  have h : (create_order dbAtomic reqAtomic 1 "N" 0).outcome =
      .error (.insufficientStock "C") := by decide
  exact ⟨h, create_order_atomicity dbAtomic reqAtomic 1 "N" 0 _ h⟩

/-! ## C8 — order-number collision handling -/

/-- C8 counterexample: with an order numbered "ORD1" already stored, a
request whose generated number is again "ORD1" is answered with the
rolled-back conflict error — `create_order` performs no internal retry with
a regenerated number before surfacing the failure. -/
theorem create_order_no_retry_counterexample :
    (create_order dbConflict reqConflict 2 "ORD1" 0).outcome =
      .error .commitConflict ∧
    (create_order dbConflict reqConflict 2 "ORD1" 0).committed = false := by
  exact ⟨by decide, rfl⟩

/-- C8 (amended): on an order-number collision `create_order` does not retry:
the request never commits, the store is left unchanged, and an error is
surfaced to the caller. -/
theorem create_order_conflict_surfaces (db : DB) (req : CreateOrderRequest)
    (oid : Nat) (onum : String) (now : Nat)
    (h : (db.orders.any fun o => o.order_number == onum) = true) :
    (create_order db req oid onum now).committed = false ∧
    persisted db (create_order db req oid onum now) = db ∧
    ∃ e, (create_order db req oid onum now).outcome = .error e := by
  rcases create_order_cases db req oid onum now with ⟨hc, he⟩ | ⟨_, hno, _⟩
  · exact ⟨hc, by simp [persisted, hc], he⟩
  · rw [h] at hno
    exact absurd hno (by simp)

/-- Evaluation of C8 (amended) at the collision store: the store persists
unchanged. -/
theorem create_order_conflict_surfaces_eval :
    (dbConflict.orders.any fun o => o.order_number == "ORD1") = true ∧
    persisted dbConflict (create_order dbConflict reqConflict 2 "ORD1" 0) =
      dbConflict := by
  refine ⟨by decide, ?_⟩
  exact (create_order_conflict_surfaces dbConflict reqConflict 2 "ORD1" 0
    (by decide)).2.1

/-! ## C9 — order of the validation checks -/

/-- C9 counterexample: a request whose customer id (5) does not resolve in a
store with no customers, and whose `items` array is empty, fails with the
items-required error, not with CustomerNotFound. -/
theorem create_order_check_order_counterexample :
    (create_order ⟨[], [], [], []⟩ ⟨some 5, some [], 0⟩ 1 "N" 0).outcome =
      .error .itemsRequired ∧
    (create_order ⟨[], [], [], []⟩ ⟨some 5, some [], 0⟩ 1 "N" 0).outcome ≠
      .error .customerNotFound := by
  exact ⟨rfl, by decide⟩

/-- C9 (amended): the empty/malformed-items presence check precedes customer
resolution: a request with a present, non-zero customer id and a missing or
empty items array fails with the items-required error regardless of whether
the customer resolves; CustomerNotFound is reported only when the items
array is a non-empty list. -/
theorem create_order_items_check_first :
    (∀ (db : DB) (cid : Nat) (its : Option (List LineReq)) (ship : ℚ)
        (oid : Nat) (onum : String) (now : Nat),
      cid ≠ 0 → (its = none ∨ its = some []) →
      (create_order db ⟨some cid, its, ship⟩ oid onum now).outcome =
        .error .itemsRequired) ∧
    (∀ (db : DB) (cid : Nat) (l : LineReq) (rest : List LineReq) (ship : ℚ)
        (oid : Nat) (onum : String) (now : Nat),
      cid ≠ 0 → db.customers.contains cid = false →
      (create_order db ⟨some cid, some (l :: rest), ship⟩ oid onum now).outcome =
        .error .customerNotFound) := by
  constructor
  · rintro db cid its ship oid onum now hc (rfl | rfl) <;> simp [create_order, hc]
  · intro db cid l rest ship oid onum now hc hnc
    have hnc' : cid ∉ db.customers := by simpa using hnc
    simp [create_order, hc, hnc']

/-- Evaluation of C9 (amended): with no customers stored, customer id 7 and a
missing items array give the items-required error; the same customer id with
a well-formed non-empty items array gives CustomerNotFound. -/
theorem create_order_items_check_first_eval :
    (create_order ⟨[], [], [], []⟩ ⟨some 7, none, 0⟩ 1 "M" 0).outcome =
      .error .itemsRequired ∧
    (create_order ⟨[], [], [], []⟩ ⟨some 7, some [⟨some 1, some 1⟩], 0⟩ 1
        "M" 0).outcome = .error .customerNotFound := by
  exact ⟨create_order_items_check_first.1 ⟨[], [], [], []⟩ 7 none 0 1 "M" 0
      (by decide) (Or.inl rfl),
    create_order_items_check_first.2 ⟨[], [], [], []⟩ 7 ⟨some 1, some 1⟩ [] 0 1
      "M" 0 (by decide) (by decide)⟩

/-! ## C5 — cancellation -/

theorem find?_append_none {α : Type} (pr : α → Bool) (l1 l2 : List α)
    (h : l1.find? pr = none) : (l1 ++ l2).find? pr = l2.find? pr := by
  induction l1 with
  | nil => simp
  | cons a t ih =>
    cases hpa : pr a with
    | true =>
      rw [List.find?_cons_of_pos _ hpa] at h
      exact absurd h (by simp)
    | false =>
      have hneg : ¬ pr a = true := by simp [hpa]
      rw [List.find?_cons_of_neg _ hneg] at h
      rw [List.cons_append, List.find?_cons_of_neg _ hneg]
      exact ih h

/-- Effect of the stock-restoration fold on the product found under a given
id: its stock grows by the summed quantities of the restored items that
reference that product. -/
theorem foldl_restore_find (pid : Nat) :
    ∀ (its : List OrderItem) (ps : List Product) (p : Product),
      ps.find? (fun x => x.id == pid) = some p →
      (its.foldl restoreStep ps).find? (fun x => x.id == pid) =
        some { p with stock_quantity := p.stock_quantity +
          ((its.filter fun it => it.product_id == pid).map (·.quantity)).sum } := by
  intro its
  induction its with
  | nil =>
    intro ps p h
    simp only [List.foldl_nil, List.filter_nil, List.map_nil, List.sum_nil,
      add_zero]
    exact h
  | cons it rest ih =>
    intro ps p h
    have hpid : p.id = pid := by simpa using List.find?_some h
    rw [List.foldl_cons]
    have hid : ∀ x : Product,
        ((fun y : Product =>
          if y.id == it.product_id then increase_stock y it.quantity else y) x).id
          = x.id := by
      intro x
      by_cases hx : x.id = it.product_id <;> simp [hx, increase_stock]
    have hstep : (restoreStep ps it).find? (fun x => x.id == pid) =
        some (if p.id == it.product_id then increase_stock p it.quantity else p) :=
      find?_map_of_id _ hid ps pid p h
    by_cases hit : it.product_id = pid
    · have hb : (if p.id == it.product_id then increase_stock p it.quantity else p)
          = { p with stock_quantity := p.stock_quantity + it.quantity } := by
        simp [hpid, hit, increase_stock]
      rw [hb] at hstep
      have hrec := ih (restoreStep ps it) _ hstep
      rw [hrec]
      simp [List.filter_cons, hit, add_assoc]
    · have hne : pid ≠ it.product_id := fun hh => hit hh.symm
      have hb : (if p.id == it.product_id then increase_stock p it.quantity else p)
          = p := by
        simp [hpid, hne]
      rw [hb] at hstep
      have hrec := ih (restoreStep ps it) _ hstep
      rw [hrec]
      simp [List.filter_cons, hit]

/-- C5: `DELETE /api/orders/<id>` fails with InvalidCancellation for every
order whose status is not Pending (leaving the store untouched, since the
route's guard precedes all mutations); for a Pending order it returns a
store in which every product's stock has grown by the summed quantities of
that order's line items for it, the order is Cancelled with `updated_at`
stamped, and a second cancellation of the same order fails with
InvalidCancellation. -/
theorem cancel_order_spec (db : DB) (oid now now' : Nat) (o : Order)
    (hfind : db.orders.find? (fun x => x.id == oid) = some o) :
    (o.status ≠ .Pending → cancel_order db oid now = .error .invalidCancellation) ∧
    (o.status = .Pending →
      ∃ db', cancel_order db oid now = .ok db' ∧
        (∀ (pid : Nat) (p : Product),
          db.products.find? (fun x => x.id == pid) = some p →
          db'.products.find? (fun x => x.id == pid) =
            some { p with stock_quantity := p.stock_quantity +
              (((db.order_items.filter fun it => it.order_id == o.id).filter
                  fun it => it.product_id == pid).map (·.quantity)).sum }) ∧
        db'.orders.find? (fun x => x.id == oid) =
          some { o with status := .Cancelled, updated_at := now } ∧
        cancel_order db' oid now' = .error .invalidCancellation) := by
  constructor
  · intro hs
    unfold cancel_order
    rw [hfind]
    dsimp only
    rw [if_pos hs]
  · intro hs
    have ho' : (update_status o Status.Cancelled now).2 =
        { o with status := .Cancelled, updated_at := now } := by
      simp [update_status, hs, can_transition_to]
    have hrun : cancel_order db oid now =
        .ok { db with
          products := (db.order_items.filter fun it => it.order_id == o.id).foldl
            restoreStep db.products,
          orders := db.orders.map fun x =>
            if x.id == o.id then (update_status o Status.Cancelled now).2 else x } := by
      unfold cancel_order
      rw [hfind]
      dsimp only
      rw [if_neg (by simp [hs])]
    have hford0 := find?_replace db.orders oid o
      ((update_status o Status.Cancelled now).2) (by rw [ho']) hfind
    have hford1 : (db.orders.map fun x =>
        if x.id == o.id then (update_status o Status.Cancelled now).2 else x).find?
          (fun x => x.id == oid) =
        some { o with status := .Cancelled, updated_at := now } := by
      rw [hford0, ho']
    refine ⟨_, hrun, ?_, ?_, ?_⟩
    · intro pid p hp
      exact foldl_restore_find pid _ db.products p hp
    · exact hford1
    · unfold cancel_order
      dsimp only
      rw [hford1]
      dsimp only
      rw [if_pos (by simp)]

/-- Evaluation of C5 on the spec's example: cancelling the Pending 2-unit
order restores the stock from 8 to 10, marks the order Cancelled, and a
second cancellation fails with InvalidCancellation. -/
theorem cancel_order_spec_eval :
    ∃ db', cancel_order dbCancel 1 7 = .ok db' ∧
      db'.products.find? (fun x => x.id == 1) = some ⟨1, "A", 5, 8 + 2⟩ ∧
      db'.orders.find? (fun x => x.id == 1) =
        some { oCancel with status := .Cancelled, updated_at := 7 } ∧
      cancel_order db' 1 8 = .error .invalidCancellation := by
  obtain ⟨db', h1, h2, h3, h4⟩ :=
    (cancel_order_spec dbCancel 1 7 8 oCancel (by decide)).2 (by decide)
  refine ⟨db', h1, ?_, h3, h4⟩
  have := h2 1 ⟨1, "A", 5, 8⟩ (by decide)
  rw [this]
  decide

/-! ## C10 — no positivity check on line quantities -/

/-- The successful run of `cancel_order` on a Pending order, spelled out. -/
theorem cancel_order_run (db : DB) (oid now : Nat) (o1 : Order)
    (hfo : db.orders.find? (fun x => x.id == oid) = some o1)
    (hstat : o1.status = Status.Pending) :
    cancel_order db oid now = .ok { db with
      products := (db.order_items.filter fun it => it.order_id == o1.id).foldl
        restoreStep db.products,
      orders := db.orders.map fun x =>
        if x.id == o1.id then (update_status o1 Status.Cancelled now).2 else x } := by
  unfold cancel_order
  rw [hfo]
  dsimp only
  rw [if_neg (by simp [hstat])]

/-- C10: `create_order` never checks that a quantity is positive: with an
existing customer and product of non-negative stock, a single line of
quantity `q ≤ 0` passes the insufficient-stock check, commits a line item
with that quantity, and changes the stock by `-q` (so a negative quantity
increases stock at creation); cancelling the resulting order applies
`increase_stock q`, bringing the stock back down to its original value. -/
theorem create_order_negative_quantity (db : DB) (cid pid oid : Nat)
    (onum : String) (now now' : Nat) (ship : ℚ) (q : Int) (p : Product)
    (hcid : db.customers.contains cid = true) (hc0 : cid ≠ 0)
    (hp : db.products.find? (fun x => x.id == pid) = some p)
    (hstock : 0 ≤ p.stock_quantity) (hq : q ≤ 0)
    (hnum : (db.orders.any fun x => x.order_number == onum) = false)
    (hoidO : ∀ x ∈ db.orders, x.id ≠ oid)
    (hoidI : ∀ it ∈ db.order_items, it.order_id ≠ oid) :
    (create_order db ⟨some cid, some [⟨some pid, some q⟩], ship⟩ oid onum
        now).committed = true ∧
    (create_order db ⟨some cid, some [⟨some pid, some q⟩], ship⟩ oid onum
        now).session.order_items =
      db.order_items ++ [⟨oid, p.id, q, p.price, (q : ℚ) * p.price⟩] ∧
    (create_order db ⟨some cid, some [⟨some pid, some q⟩], ship⟩ oid onum
        now).session.products.find? (fun x => x.id == pid) =
      some { p with stock_quantity := p.stock_quantity - q } ∧
    p.stock_quantity ≤ p.stock_quantity - q ∧
    ∃ db2,
      cancel_order (create_order db ⟨some cid, some [⟨some pid, some q⟩], ship⟩
          oid onum now).session oid now' = .ok db2 ∧
      db2.products.find? (fun x => x.id == pid) = some p := by
  have hpid : p.id = pid := by simpa using List.find?_some hp
  have hge : q ≤ p.stock_quantity := by omega
  have hproc : processItems oid [⟨some pid, some q⟩] db.products [] =
      .ok (db.products.map fun x => if x.id == pid then (reduce_stock x q).2 else x,
        [⟨oid, p.id, q, p.price, (q : ℚ) * p.price⟩]) := by
    simp only [processItems, hp]
    rw [if_neg (by omega)]
    rfl
  have hnotempty : ¬(([⟨some pid, some q⟩] : List LineReq).isEmpty = true) := by
    simp
  have hnoconf : ¬((db.orders.any fun x => x.order_number == onum) = true) := by
    simp [hnum]
  have hcreate : create_order db ⟨some cid, some [⟨some pid, some q⟩], ship⟩
      oid onum now =
      ⟨.ok (calculate_totals ⟨oid, onum, cid, .Pending, 0, 0, ship, 0, now, none, none⟩
          [⟨oid, p.id, q, p.price, (q : ℚ) * p.price⟩]),
        { db with
            orders := db.orders ++
              [calculate_totals ⟨oid, onum, cid, .Pending, 0, 0, ship, 0, now, none, none⟩
                [⟨oid, p.id, q, p.price, (q : ℚ) * p.price⟩]],
            products := db.products.map fun x =>
              if x.id == pid then (reduce_stock x q).2 else x,
            order_items := db.order_items ++ [⟨oid, p.id, q, p.price, (q : ℚ) * p.price⟩] },
        true⟩ := by
    unfold create_order
    dsimp only
    rw [if_neg hc0, if_neg hnotempty, if_pos hcid, if_neg hnoconf, hproc]
  have hid1 : ∀ x : Product,
      ((fun y : Product => if y.id == pid then (reduce_stock y q).2 else y) x).id
        = x.id := by
    intro x
    have hr : ((reduce_stock x q).2).id = x.id := by
      unfold reduce_stock
      split <;> rfl
    by_cases hx : x.id = pid
    · have hpos : (x.id == pid) = true := by simp [hx]
      dsimp only
      rw [if_pos hpos]
      exact hr
    · have hneg : ¬((x.id == pid) = true) := by simp [hx]
      dsimp only
      rw [if_neg hneg]
  have hfind2 : (db.products.map fun x =>
      if x.id == pid then (reduce_stock x q).2 else x).find? (fun x => x.id == pid) =
      some { p with stock_quantity := p.stock_quantity - q } := by
    rw [find?_map_of_id _ hid1 db.products pid p hp]
    simp [hpid, reduce_stock, ge_iff_le, hge]
  refine ⟨by rw [hcreate], by rw [hcreate], by rw [hcreate]; exact hfind2,
    by omega, ?_⟩
  rw [hcreate]
  dsimp only
  have hfo_db : db.orders.find? (fun x => x.id == oid) = none :=
    List.find?_eq_none.mpr (fun x hx => by simp [hoidO x hx])
  have hpred : ((calculate_totals ⟨oid, onum, cid, .Pending, 0, 0, ship, 0, now,
      none, none⟩ [⟨oid, p.id, q, p.price, (q : ℚ) * p.price⟩]).id == oid) = true := by
    have hidr : (calculate_totals ⟨oid, onum, cid, .Pending, 0, 0, ship, 0, now,
        none, none⟩ [⟨oid, p.id, q, p.price, (q : ℚ) * p.price⟩]).id = oid := rfl
    simp [hidr]
  have hfo : (db.orders ++
      [calculate_totals ⟨oid, onum, cid, .Pending, 0, 0, ship, 0, now, none, none⟩
        [⟨oid, p.id, q, p.price, (q : ℚ) * p.price⟩]]).find?
      (fun x => x.id == oid) =
      some (calculate_totals ⟨oid, onum, cid, .Pending, 0, 0, ship, 0, now, none, none⟩
        [⟨oid, p.id, q, p.price, (q : ℚ) * p.price⟩]) := by
    rw [find?_append_none _ _ _ hfo_db]
    exact List.find?_cons_of_pos _ hpred
  have hst : (calculate_totals ⟨oid, onum, cid, .Pending, 0, 0, ship, 0, now,
      none, none⟩ [⟨oid, p.id, q, p.price, (q : ℚ) * p.price⟩]).status =
      Status.Pending := rfl
  have hcan := cancel_order_run
    { db with
        orders := db.orders ++
          [calculate_totals ⟨oid, onum, cid, .Pending, 0, 0, ship, 0, now, none, none⟩
            [⟨oid, p.id, q, p.price, (q : ℚ) * p.price⟩]],
        products := db.products.map fun x =>
          if x.id == pid then (reduce_stock x q).2 else x,
        order_items := db.order_items ++ [⟨oid, p.id, q, p.price, (q : ℚ) * p.price⟩] }
    oid now' _ hfo hst
  refine ⟨_, hcan, ?_⟩
  dsimp only
  have hid0 : (calculate_totals ⟨oid, onum, cid, .Pending, 0, 0, ship, 0, now,
      none, none⟩ [⟨oid, p.id, q, p.price, (q : ℚ) * p.price⟩]).id = oid := rfl
  rw [hid0]
  have h1 : db.order_items.filter (fun it => it.order_id == oid) = [] :=
    List.filter_eq_nil_iff.mpr (fun it hit => by simp [hoidI it hit])
  have h2 : ([⟨oid, p.id, q, p.price, (q : ℚ) * p.price⟩] :
      List OrderItem).filter (fun it => it.order_id == oid) =
      [⟨oid, p.id, q, p.price, (q : ℚ) * p.price⟩] := by simp
  rw [List.filter_append, h1, List.nil_append, h2, List.foldl_cons, List.foldl_nil]
  have hid2 : ∀ x : Product,
      ((fun y : Product => if y.id == (⟨oid, p.id, q, p.price, (q : ℚ) * p.price⟩ :
          OrderItem).product_id then
        increase_stock y (⟨oid, p.id, q, p.price, (q : ℚ) * p.price⟩ :
          OrderItem).quantity else y) x).id = x.id := by
    intro x
    by_cases hx : x.id = p.id
    · have hpos : (x.id == (⟨oid, p.id, q, p.price, (q : ℚ) * p.price⟩ :
          OrderItem).product_id) = true := by simp [hx]
      dsimp only
      rw [if_pos hpos]
      rfl
    · have hneg : ¬((x.id == (⟨oid, p.id, q, p.price, (q : ℚ) * p.price⟩ :
          OrderItem).product_id) = true) := by simp [hx]
      dsimp only
      rw [if_neg hneg]
  rw [show restoreStep (db.products.map fun x =>
      if x.id == pid then (reduce_stock x q).2 else x)
      (⟨oid, p.id, q, p.price, (q : ℚ) * p.price⟩ : OrderItem) =
    ((db.products.map fun x => if x.id == pid then (reduce_stock x q).2 else x).map
      (fun y : Product => if y.id == (⟨oid, p.id, q, p.price, (q : ℚ) * p.price⟩ :
          OrderItem).product_id then
        increase_stock y (⟨oid, p.id, q, p.price, (q : ℚ) * p.price⟩ :
          OrderItem).quantity else y)) from rfl]
  rw [find?_map_of_id _ hid2 _ pid _ hfind2]
  have hfinal : (if ({ p with stock_quantity := p.stock_quantity - q } :
      Product).id == (⟨oid, p.id, q, p.price, (q : ℚ) * p.price⟩ :
        OrderItem).product_id then
      increase_stock { p with stock_quantity := p.stock_quantity - q }
        (⟨oid, p.id, q, p.price, (q : ℚ) * p.price⟩ : OrderItem).quantity
      else { p with stock_quantity := p.stock_quantity - q }) = p := by
    have hpos : (({ p with stock_quantity := p.stock_quantity - q } :
        Product).id == (⟨oid, p.id, q, p.price, (q : ℚ) * p.price⟩ :
          OrderItem).product_id) = true := by simp
    rw [if_pos hpos]
    have : p.stock_quantity - q + q = p.stock_quantity := by omega
    simp [increase_stock, this]
  rw [hfinal]

/-- Evaluation of C10: a line of quantity −3 against stock 5 commits and
raises the stock to 8; cancelling the order brings it back to 5. -/
theorem create_order_negative_quantity_eval :
    (create_order dbNeg ⟨some 1, some [⟨some 1, some (-3)⟩], 0⟩ 1 "N"
        0).session.products.find? (fun x => x.id == 1) = some ⟨1, "A", 5, 8⟩ ∧
    ∃ db2,
      cancel_order (create_order dbNeg ⟨some 1, some [⟨some 1, some (-3)⟩], 0⟩
          1 "N" 0).session 1 9 = .ok db2 ∧
      db2.products.find? (fun x => x.id == 1) = some ⟨1, "A", 5, 5⟩ := by
  have h := create_order_negative_quantity dbNeg 1 1 1 "N" 0 9 0 (-3)
    ⟨1, "A", 5, 5⟩ (by decide) (by decide) (by decide) (by decide) (by decide)
    (by decide) (by simp [dbNeg]) (by simp [dbNeg])
  constructor
  · rw [h.2.2.1]
    decide
  · exact h.2.2.2.2

/-! ## C2 — stock conservation under replayed sequences -/

theorem processItems_singleton (oid pid : Nat) (name : String) (price : ℚ) :
    ∀ (qs : List Int) (s : Int) (acc : List OrderItem),
      (∃ e ps2 acc2, processItems oid (qs.map fun q => ⟨some pid, some q⟩)
        [⟨pid, name, price, s⟩] acc = .error (e, ps2, acc2)) ∨
      processItems oid (qs.map fun q => ⟨some pid, some q⟩)
        [⟨pid, name, price, s⟩] acc =
        .ok ([⟨pid, name, price, s - qs.sum⟩],
          acc ++ qs.map fun q => ⟨oid, pid, q, price, (q : ℚ) * price⟩) := by
  intro qs
  induction qs with
  | nil =>
    intro s acc
    right
    simp [processItems]
  | cons qh qt ih =>
    intro s acc
    by_cases hlt : s < qh
    · left
      exact ⟨.insufficientStock name, [⟨pid, name, price, s⟩], acc,
        by simp [processItems, hlt]⟩
    · have hge : qh ≤ s := by omega
      have hred : processItems oid ((qh :: qt).map fun q => ⟨some pid, some q⟩)
          [⟨pid, name, price, s⟩] acc =
          processItems oid (qt.map fun q => ⟨some pid, some q⟩)
            [⟨pid, name, price, s - qh⟩]
            (acc ++ [⟨oid, pid, qh, price, (qh : ℚ) * price⟩]) := by
        simp [processItems, hlt, reduce_stock, ge_iff_le, hge,
          calculate_line_total]
      rcases ih (s - qh) (acc ++ [⟨oid, pid, qh, price, (qh : ℚ) * price⟩]) with
        ⟨e, ps2, acc2, he⟩ | hok
      · exact Or.inl ⟨e, ps2, acc2, hred.trans he⟩
      · right
        rw [hred, hok]
        simp [sub_sub]

theorem orderDemand_append (items1 items2 : List OrderItem) (pid oid0 : Nat) :
    orderDemand (items1 ++ items2) pid oid0 =
      orderDemand items1 pid oid0 + orderDemand items2 pid oid0 := by
  simp [orderDemand, List.filter_append]

theorem orderDemand_eq_zero (items : List OrderItem) (pid oid0 : Nat)
    (h : ∀ it ∈ items, it.order_id ≠ oid0) : orderDemand items pid oid0 = 0 := by
  have hnil : items.filter
      (fun it => it.order_id == oid0 && it.product_id == pid) = [] :=
    List.filter_eq_nil_iff.mpr (fun it hit => by simp [h it hit])
  simp [orderDemand, hnil]

theorem orderDemand_new (oid0 pid : Nat) (price : ℚ) :
    ∀ qs : List Int,
      orderDemand (qs.map fun q => ⟨oid0, pid, q, price, (q : ℚ) * price⟩)
        pid oid0 = qs.sum := by
  intro qs
  unfold orderDemand
  induction qs with
  | nil => simp
  | cons qh qt ih =>
    rw [List.map_cons, List.filter_cons_of_pos (by simp), List.map_cons,
      List.sum_cons, List.sum_cons, ih]

theorem restore_singleton (pid : Nat) (name : String) (price : ℚ) :
    ∀ (its : List OrderItem) (s : Int), (∀ it ∈ its, it.product_id = pid) →
      its.foldl restoreStep [⟨pid, name, price, s⟩] =
        [⟨pid, name, price, s + (its.map (·.quantity)).sum⟩] := by
  intro its
  induction its with
  | nil => intro s _; simp
  | cons it rest ih =>
    intro s hall
    rw [List.foldl_cons]
    have hpp : it.product_id = pid := hall it (by simp)
    have hstep : restoreStep [⟨pid, name, price, s⟩] it =
        [⟨pid, name, price, s + it.quantity⟩] := by
      simp [restoreStep, hpp, increase_stock]
    rw [hstep, ih (s + it.quantity) (fun x hx => hall x (by simp [hx]))]
    simp [add_assoc]

theorem filter_and_of_all (pid oid0 : Nat) :
    ∀ its : List OrderItem, (∀ it ∈ its, it.product_id = pid) →
      its.filter (fun it => it.order_id == oid0 && it.product_id == pid) =
        its.filter (fun it => it.order_id == oid0) := by
  intro its
  induction its with
  | nil => intro _; rfl
  | cons it rest ih =>
    intro hall
    have hpp : it.product_id = pid := hall it (by simp)
    have hrest := ih (fun x hx => hall x (by simp [hx]))
    by_cases ho : it.order_id = oid0
    · rw [List.filter_cons_of_pos (by simp [ho, hpp]),
        List.filter_cons_of_pos (by simp [ho]), hrest]
    · rw [List.filter_cons_of_neg (by simp [ho]),
        List.filter_cons_of_neg (by simp [ho]), hrest]

theorem activeSum_replace (g : Nat → Int) (o o' : Order) (hid : o'.id = o.id)
    (ho' : o'.status = Status.Cancelled) (hP : o.status = Status.Pending) :
    ∀ os : List Order, os.Pairwise (fun a b => a.id ≠ b.id) →
      os.find? (fun x => x.id == o.id) = some o →
      (((os.map fun x => if x.id == o.id then o' else x).filter
        (fun x => x.status != Status.Cancelled)).map (fun x => g x.id)).sum =
      ((os.filter (fun x => x.status != Status.Cancelled)).map
        (fun x => g x.id)).sum - g o.id := by
  intro os
  induction os with
  | nil => intro _ h; simp at h
  | cons a t ih =>
    intro hpair h
    obtain ⟨ha, ht⟩ := List.pairwise_cons.mp hpair
    rw [List.map_cons]
    by_cases hpa : a.id = o.id
    · have ha_eq : a = o := by
        simp [List.find?_cons, hpa] at h
        exact h
      subst ha_eq
      have hif : (if a.id == a.id then o' else a) = o' := by simp
      rw [hif]
      have htail : t.map (fun x => if x.id == a.id then o' else x) = t := by
        have hcongr : ∀ b ∈ t, (if b.id == a.id then o' else b) = b := by
          intro b hb
          have hne : b.id ≠ a.id := fun hh => (ha b hb) hh.symm
          simp [hne]
        calc t.map (fun x => if x.id == a.id then o' else x)
            = t.map id := List.map_congr_left hcongr
          _ = t := List.map_id t
      rw [htail]
      simp only [List.filter_cons]
      have hc1 : ¬((o'.status != Status.Cancelled) = true) := by simp [ho']
      have hc2 : (a.status != Status.Cancelled) = true := by simp [hP]
      rw [if_neg hc1, if_pos hc2, List.map_cons, List.sum_cons]
      ring
    · have hfh : List.find? (fun x => x.id == o.id) t = some o := by
        simp [List.find?_cons, hpa] at h
        exact h
      have hif : (if a.id == o.id then o' else a) = a := by simp [hpa]
      rw [hif]
      simp only [List.filter_cons]
      by_cases hact : (a.status != Status.Cancelled) = true
      · rw [if_pos hact, if_pos hact, List.map_cons, List.sum_cons,
          List.map_cons, List.sum_cons, ih ht hfh]
        ring
      · rw [if_neg hact, if_neg hact]
        exact ih ht hfh

theorem activeDemand_create (db : DB) (cs : List Nat) (ps' : List Product)
    (pid n : Nat) (order1 : Order) (newItems : List OrderItem)
    (hfresh : ∀ o ∈ db.orders, o.id < n)
    (hitems : ∀ it ∈ db.order_items, ∃ o ∈ db.orders, it.order_id = o.id)
    (hn1 : order1.id = n) (hs1 : order1.status = Status.Pending)
    (hnew : ∀ it ∈ newItems, it.order_id = n) :
    activeDemand ⟨cs, ps', db.orders ++ [order1], db.order_items ++ newItems⟩ pid =
      activeDemand db pid + orderDemand newItems pid n := by
  unfold activeDemand
  dsimp only
  rw [List.filter_append]
  have hfo1 : [order1].filter (fun o => o.status != Status.Cancelled) =
      [order1] := by
    simp [List.filter_cons, hs1]
  rw [hfo1, List.map_append, List.sum_append]
  have hmain : (db.orders.filter fun o => o.status != Status.Cancelled).map
      (fun o => orderDemand (db.order_items ++ newItems) pid o.id) =
      (db.orders.filter fun o => o.status != Status.Cancelled).map
      (fun o => orderDemand db.order_items pid o.id) := by
    apply List.map_congr_left
    intro o ho
    have hoo : o ∈ db.orders := (List.mem_filter.mp ho).1
    have hlt := hfresh o hoo
    rw [orderDemand_append,
      orderDemand_eq_zero newItems pid o.id (fun it hit => by
        rw [hnew it hit]; omega),
      add_zero]
  rw [hmain]
  have hzero : orderDemand db.order_items pid n = 0 := by
    apply orderDemand_eq_zero
    intro it hit
    obtain ⟨o, ho, hoid⟩ := hitems it hit
    have := hfresh o ho
    omega
  have hsingle : ([order1].map
      (fun o => orderDemand (db.order_items ++ newItems) pid o.id)).sum =
      orderDemand newItems pid n := by
    simp only [List.map_cons, List.map_nil, List.sum_cons, List.sum_nil,
      add_zero]
    rw [hn1, orderDemand_append, hzero, zero_add]
  rw [hsingle]

/-- Every replayed workflow call preserves the stock-conservation invariant. -/
theorem stepOp_inv (pid : Nat) (name : String) (price : ℚ) (init : Int)
    (db : DB) (n : Nat) (op : Op)
    (h : ReplayInv pid name price init (db, n)) :
    ReplayInv pid name price init (stepOp pid (db, n) op) := by
  unfold ReplayInv at h
  obtain ⟨hcust, hprod, hfresh, hpair, hitems⟩ := h
  cases op with
  | create qs =>
    unfold stepOp
    dsimp only
    have hunch : ∀ r : CreateResult, r.committed = false →
        ReplayInv pid name price init (persisted db r, n + 1) := by
      intro r hr
      have hpd : persisted db r = db := by
        unfold persisted
        rw [hr]
        rfl
      rw [hpd]
      exact ⟨hcust, hprod, fun o ho => Nat.lt_succ_of_lt (hfresh o ho), hpair,
        hitems⟩
    by_cases hqs : qs = []
    · subst hqs
      exact hunch _ rfl
    · have hne : ¬((qs.map
          (fun q => (⟨some pid, some q⟩ : LineReq))).isEmpty = true) := by
        cases qs with
        | nil => exact absurd rfl hqs
        | cons a l => simp
      have hcont : db.customers.contains 1 = true := by rw [hcust]; rfl
      by_cases hconf : (db.orders.any fun x => x.order_number == toString n) = true
      · apply hunch
        unfold create_order mkReq
        dsimp only
        rw [if_neg (by decide), if_neg hne, if_pos hcont, if_pos hconf]
      · have hconf' :
            ¬((db.orders.any fun x => x.order_number == toString n) = true) :=
          hconf
        rcases processItems_singleton n pid name price qs
            (init - activeDemand db pid) [] with ⟨e, ps2, acc2, herr⟩ | hok
        · apply hunch
          unfold create_order mkReq
          dsimp only
          rw [if_neg (by decide), if_neg hne, if_pos hcont, if_neg hconf',
            hprod, herr]
        · rw [List.nil_append] at hok
          have hcreate : create_order db (mkReq pid qs) n (toString n) 0 =
              ⟨.ok (calculate_totals
                  ⟨n, toString n, 1, .Pending, 0, 0, 0, 0, 0, none, none⟩
                  (qs.map fun q => ⟨n, pid, q, price, (q : ℚ) * price⟩)),
                { db with
                    orders := db.orders ++ [calculate_totals
                      ⟨n, toString n, 1, .Pending, 0, 0, 0, 0, 0, none, none⟩
                      (qs.map fun q => ⟨n, pid, q, price, (q : ℚ) * price⟩)],
                    products := [⟨pid, name, price,
                      init - activeDemand db pid - qs.sum⟩],
                    order_items := db.order_items ++
                      (qs.map fun q => ⟨n, pid, q, price, (q : ℚ) * price⟩) },
                true⟩ := by
            unfold create_order mkReq
            dsimp only
            rw [if_neg (by decide), if_neg hne, if_pos hcont, if_neg hconf',
              hprod, hok]
          rw [hcreate]
          have hpd : persisted db
              (⟨.ok (calculate_totals
                  ⟨n, toString n, 1, .Pending, 0, 0, 0, 0, 0, none, none⟩
                  (qs.map fun q => ⟨n, pid, q, price, (q : ℚ) * price⟩)),
                { db with
                    orders := db.orders ++ [calculate_totals
                      ⟨n, toString n, 1, .Pending, 0, 0, 0, 0, 0, none, none⟩
                      (qs.map fun q => ⟨n, pid, q, price, (q : ℚ) * price⟩)],
                    products := [⟨pid, name, price,
                      init - activeDemand db pid - qs.sum⟩],
                    order_items := db.order_items ++
                      (qs.map fun q => ⟨n, pid, q, price, (q : ℚ) * price⟩) },
                true⟩ : CreateResult) =
              { db with
                  orders := db.orders ++ [calculate_totals
                    ⟨n, toString n, 1, .Pending, 0, 0, 0, 0, 0, none, none⟩
                    (qs.map fun q => ⟨n, pid, q, price, (q : ℚ) * price⟩)],
                  products := [⟨pid, name, price,
                    init - activeDemand db pid - qs.sum⟩],
                  order_items := db.order_items ++
                    (qs.map fun q => ⟨n, pid, q, price, (q : ℚ) * price⟩) } := rfl
          rw [hpd]
          have hAD : activeDemand
              { db with
                  orders := db.orders ++ [calculate_totals
                    ⟨n, toString n, 1, .Pending, 0, 0, 0, 0, 0, none, none⟩
                    (qs.map fun q => ⟨n, pid, q, price, (q : ℚ) * price⟩)],
                  products := [⟨pid, name, price,
                    init - activeDemand db pid - qs.sum⟩],
                  order_items := db.order_items ++
                    (qs.map fun q => ⟨n, pid, q, price, (q : ℚ) * price⟩) } pid =
              activeDemand db pid + qs.sum := by
            have hstep := activeDemand_create db db.customers
              [⟨pid, name, price, init - activeDemand db pid - qs.sum⟩] pid n
              (calculate_totals ⟨n, toString n, 1, .Pending, 0, 0, 0, 0, 0,
                none, none⟩ (qs.map fun q => ⟨n, pid, q, price, (q : ℚ) * price⟩))
              (qs.map fun q => ⟨n, pid, q, price, (q : ℚ) * price⟩)
              hfresh (fun it hit => (hitems it hit).2) rfl rfl
              (fun it hit => by
                obtain ⟨q, hq, rfl⟩ := List.mem_map.mp hit
                rfl)
            rw [orderDemand_new] at hstep
            exact hstep
          refine ⟨hcust, ?_, ?_, ?_, ?_⟩
          · have harith : init - activeDemand db pid - qs.sum =
                init - (activeDemand db pid + qs.sum) := by omega
            rw [hAD, ← harith]
          · intro o ho
            rcases List.mem_append.mp ho with h1 | h2
            · exact Nat.lt_succ_of_lt (hfresh o h1)
            · cases List.mem_singleton.mp h2
              exact Nat.lt_succ_self n
          · rw [List.pairwise_append]
            refine ⟨hpair, List.pairwise_singleton _ _, ?_⟩
            intro a hha b hb
            cases List.mem_singleton.mp hb
            have hlt := hfresh a hha
            have hn : (calculate_totals
                ⟨n, toString n, 1, .Pending, 0, 0, 0, 0, 0, none, none⟩
                (qs.map fun q => ⟨n, pid, q, price, (q : ℚ) * price⟩)).id = n :=
              rfl
            rw [hn]
            omega
          · intro it hit
            rcases List.mem_append.mp hit with h1 | h2
            · obtain ⟨hpid', o, ho, hoid⟩ := hitems it h1
              exact ⟨hpid', o, List.mem_append_left _ ho, hoid⟩
            · obtain ⟨q, hq, rfl⟩ := List.mem_map.mp h2
              exact ⟨rfl, calculate_totals
                ⟨n, toString n, 1, .Pending, 0, 0, 0, 0, 0, none, none⟩
                (qs.map fun q => ⟨n, pid, q, price, (q : ℚ) * price⟩),
                List.mem_append_right _ (by simp), rfl⟩
  | cancel oid0 =>
    unfold stepOp
    dsimp only
    cases hf : db.orders.find? (fun x => x.id == oid0) with
    | none =>
      have hc : cancel_order db oid0 0 = .error .orderNotFound := by
        unfold cancel_order
        rw [hf]
      rw [hc]
      exact ⟨hcust, hprod, hfresh, hpair, hitems⟩
    | some o =>
      have hoid : o.id = oid0 := by simpa using List.find?_some hf
      by_cases hstat : o.status = Status.Pending
      · have hf' : db.orders.find? (fun x => x.id == o.id) = some o := by
          rw [hoid]
          exact hf
        have hrun := cancel_order_run db oid0 0 o hf hstat
        rw [hrun]
        dsimp only
        have hodef : (update_status o Status.Cancelled 0).2 =
            { o with status := .Cancelled, updated_at := 0 } := by
          simp [update_status, hstat, can_transition_to]
        have hA : ∀ y : Order,
            (if y.id == o.id then (update_status o Status.Cancelled 0).2 else y).id
              = y.id := by
          intro y
          by_cases hyy : y.id = o.id
          · rw [if_pos (by simp [hyy]), hodef]
            exact hyy.symm
          · rw [if_neg (by simp [hyy])]
        have hallpid : ∀ it ∈ db.order_items.filter
            (fun it => it.order_id == o.id), it.product_id = pid :=
          fun it hit => (hitems it (List.mem_filter.mp hit).1).1
        have hrest : (db.order_items.filter (fun it => it.order_id == o.id)).foldl
            restoreStep db.products =
            [⟨pid, name, price, (init - activeDemand db pid) +
              ((db.order_items.filter (fun it => it.order_id == o.id)).map
                (·.quantity)).sum⟩] := by
          rw [hprod]
          exact restore_singleton pid name price _ _ hallpid
        have hd : ((db.order_items.filter (fun it => it.order_id == o.id)).map
            (·.quantity)).sum = orderDemand db.order_items pid o.id := by
          unfold orderDemand
          rw [filter_and_of_all pid o.id db.order_items
            (fun it hit => (hitems it hit).1)]
        have hAD : ∀ psx : List Product,
            activeDemand ⟨db.customers, psx,
              db.orders.map (fun x => if x.id == o.id
                then (update_status o Status.Cancelled 0).2 else x),
              db.order_items⟩ pid =
              activeDemand db pid - orderDemand db.order_items pid o.id := by
          intro psx
          unfold activeDemand
          dsimp only
          exact activeSum_replace (fun i => orderDemand db.order_items pid i) o
            ((update_status o Status.Cancelled 0).2) (by rw [hodef])
            (by rw [hodef]) hstat db.orders hpair hf'
        refine ⟨hcust, ?_, ?_, ?_, ?_⟩
        · show (db.order_items.filter (fun it => it.order_id == o.id)).foldl
            restoreStep db.products = _
          rw [hrest, hd, hAD]
          have harith : init - activeDemand db pid +
              orderDemand db.order_items pid o.id =
              init - (activeDemand db pid - orderDemand db.order_items pid o.id) := by
            omega
          rw [harith]
        · intro x hx
          obtain ⟨y, hy, rfl⟩ := List.mem_map.mp hx
          rw [hA y]
          exact hfresh y hy
        · rw [List.pairwise_map]
          refine hpair.imp ?_
          intro a b hab
          rw [hA a, hA b]
          exact hab
        · intro it hit
          obtain ⟨hpid', o2, ho2, hoid2⟩ := hitems it hit
          refine ⟨hpid', _, List.mem_map_of_mem _ ho2, ?_⟩
          rw [hA o2]
          exact hoid2
      · have hc : cancel_order db oid0 0 = .error .invalidCancellation := by
          unfold cancel_order
          rw [hf]
          dsimp only
          rw [if_pos hstat]
        rw [hc]
        exact ⟨hcust, hprod, hfresh, hpair, hitems⟩

/-- The stock-conservation invariant holds after replaying any sequence. -/
theorem replay_inv (pid : Nat) (name : String) (price : ℚ) (init : Int)
    (ops : List Op) :
    ReplayInv pid name price init (replay pid name price init ops) := by
  have h0 : ReplayInv pid name price init (initDB pid name price init, 0) := by
    refine ⟨rfl, ?_, ?_, ?_, ?_⟩
    · have hAD : activeDemand (initDB pid name price init) pid = 0 := by
        simp [activeDemand, initDB]
      rw [hAD]
      simp [initDB]
    · intro o ho
      simp [initDB] at ho
    · simp [initDB]
    · intro it hit
      simp [initDB] at hit
  suffices hstep : ∀ (l : List Op) (st : DB × Nat),
      ReplayInv pid name price init st →
      ReplayInv pid name price init (l.foldl (stepOp pid) st) from
    hstep ops _ h0
  intro l
  induction l with
  | nil => intro st h; simpa using h
  | cons a t ih =>
    intro st h
    rw [List.foldl_cons]
    exact ih _ (stepOp_inv pid name price init st.1 st.2 a h)

/-- C2: stock conservation.  Replaying any sequence of CreateOrder and
CancelOrder calls against a single-product store (failed calls leave the
store unchanged, successful ones commit) always leaves the product's stock
equal to the initial stock minus the summed quantities of the line items of
the orders that are still active (not Cancelled) at the end. -/
theorem stock_conservation_replay (pid : Nat) (name : String) (price : ℚ)
    (init : Int) (ops : List Op) :
    (replay pid name price init ops).1.products =
      [⟨pid, name, price,
        init - activeDemand (replay pid name price init ops).1 pid⟩] :=
  (replay_inv pid name price init ops).2.1
